import Mathlib

/-!
# Verification of the broccoli plugin registry and slot composition engine

Shallow embedding of the plugin SDK (`packages/sdk/src`): the plugin
registry providers (`plugin/PluginRegistryProvider.tsx` and `react.tsx`),
the slot resolver and composition renderer (`Slot` in `react.tsx`), the
i18n translation manager (`i18n.tsx`) and the batch plugin loaders
(`loadAllPlugins`, `PluginLoader`).

JavaScript objects are modelled as association lists over `String` keys
(`Obj`), JS `Map`s as association lists preserving insertion order, and
JS `Set`s as duplicate-free lists preserving insertion order.  Renderable
components (React component values) are opaque to all verified code; they
are modelled by `Nat` tokens whose only observable property is presence
in a bundle.  Async lifecycle hooks are modelled by their observable
outcome: `onInit : Option Bool` is `none` when the manifest has no hook,
`some true` when the hook settles successfully and `some false` when it
throws or rejects.
-/

namespace Broccoli

/-- A JavaScript object with values of type `α`: an association list whose
keys are unique in any state actually reachable from JS (object literals
cannot repeat keys). -/
abbrev Obj (α : Type) : Type := List (String × α)

/-- Property read `o[k]`: first binding of the key, `none` when absent. -/
def lookupObj {α : Type} : Obj α → String → Option α
  | [], _ => none
  | (k', v) :: rest, k => if k' = k then some v else lookupObj rest k

/-- Assignment `o[k] = v` (also one step of object spread): update the
existing binding in place, else append a new one — JS objects and `Map`s
keep the original key position on overwrite. -/
def setKey {α : Type} : Obj α → String → α → Obj α
  | [], k, v => [(k, v)]
  | (k', v') :: rest, k, v =>
    if k' = k then (k, v) :: rest else (k', v') :: setKey rest k v

/-- Object spread `{...o, ...d}`: fold the assignments of `d` over `o`. -/
def mergeObj {α : Type} (o d : Obj α) : Obj α :=
  d.foldl (fun acc kv => setKey acc kv.1 kv.2) o

/-- `delete o[k]`. -/
def eraseKey {α : Type} (o : Obj α) (k : String) : Obj α :=
  o.filter (fun kv => !(kv.1 == k))

/-- `Object.keys(d).forEach(key => delete o[key])`. -/
def eraseKeys {α : Type} (o : Obj α) (ks : List String) : Obj α :=
  ks.foldl eraseKey o

/-- `Object.keys o`. -/
def keysOf {α : Type} (o : Obj α) : List String :=
  o.map Prod.fst

theorem lookupObj_setKey_self {α : Type} (o : Obj α) (k : String) (v : α) :
    lookupObj (setKey o k v) k = some v := by
  induction o with
  | nil => simp [setKey, lookupObj]
  | cons hd tl ih =>
    by_cases h : hd.1 = k
    · simp [setKey, h, lookupObj]
    · simp [setKey, h, lookupObj, ih]

theorem lookupObj_setKey_other {α : Type} (o : Obj α) {k k' : String} (v : α)
    (h : k' ≠ k) : lookupObj (setKey o k v) k' = lookupObj o k' := by
  have hne : ¬ (k = k') := fun e => h e.symm
  induction o with
  | nil => simp [setKey, lookupObj, hne]
  | cons hd tl ih =>
    by_cases hh : hd.1 = k
    · subst hh
      simp [setKey, lookupObj, hne]
    · simp [setKey, hh, lookupObj, ih]

theorem mergeObj_nil {α : Type} (o : Obj α) : mergeObj o [] = o := rfl

theorem mergeObj_cons {α : Type} (o : Obj α) (k : String) (v : α) (d : Obj α) :
    mergeObj o ((k, v) :: d) = mergeObj (setKey o k v) d := rfl

theorem lookupObj_mergeObj_not_mem {α : Type} (d : Obj α) {k : String}
    (h : k ∉ keysOf d) : ∀ o : Obj α, lookupObj (mergeObj o d) k = lookupObj o k := by
  induction d with
  | nil => intro o; rfl
  | cons hd tl ih =>
    intro o
    have h' : k ∉ hd.1 :: keysOf tl := h
    have h1 : k ≠ hd.1 := fun e => h' (e ▸ List.mem_cons_self _ _)
    have h2 : k ∉ keysOf tl := fun m => h' (List.mem_cons_of_mem _ m)
    rw [show mergeObj o (hd :: tl) = mergeObj (setKey o hd.1 hd.2) tl from rfl,
      ih h2, lookupObj_setKey_other _ _ h1]

theorem lookupObj_eraseKey_self {α : Type} (o : Obj α) (k : String) :
    lookupObj (eraseKey o k) k = none := by
  induction o with
  | nil => rfl
  | cons hd tl ih =>
    by_cases h : hd.1 = k
    · simpa [eraseKey, List.filter_cons, h] using ih
    · simp only [eraseKey, List.filter_cons] at ih ⊢
      simp [h, lookupObj, ih]

theorem lookupObj_eraseKey_other {α : Type} (o : Obj α) {k k' : String}
    (h : k' ≠ k) : lookupObj (eraseKey o k) k' = lookupObj o k' := by
  have hne : ¬ (k = k') := fun e => h e.symm
  induction o with
  | nil => rfl
  | cons hd tl ih =>
    by_cases hh : hd.1 = k
    · simp only [eraseKey, List.filter_cons] at ih ⊢
      simp [hh, lookupObj, hne, ih]
    · simp only [eraseKey, List.filter_cons] at ih ⊢
      by_cases hk : hd.1 = k'
      · simp [hh, hk, lookupObj, h]
      · simp [hh, hk, lookupObj, ih]

theorem lookupObj_eraseKey_none {α : Type} (o : Obj α) (k k' : String)
    (h : lookupObj o k = none) : lookupObj (eraseKey o k') k = none := by
  by_cases hk : k = k'
  · subst hk; exact lookupObj_eraseKey_self o k
  · rw [lookupObj_eraseKey_other o hk]; exact h

theorem lookupObj_eraseKeys_none {α : Type} (ks : List String) {k : String} :
    ∀ o : Obj α, lookupObj o k = none → lookupObj (eraseKeys o ks) k = none := by
  induction ks with
  | nil => intro o h; exact h
  | cons hd tl ih =>
    intro o h
    exact ih (eraseKey o hd) (lookupObj_eraseKey_none o k hd h)

theorem lookupObj_eraseKeys_mem {α : Type} (ks : List String) {k : String}
    (h : k ∈ ks) : ∀ o : Obj α, lookupObj (eraseKeys o ks) k = none := by
  induction ks with
  | nil => cases h
  | cons hd tl ih =>
    intro o
    rcases List.mem_cons.mp h with h1 | h2
    · subst h1
      exact lookupObj_eraseKeys_none tl (eraseKey o k) (lookupObj_eraseKey_self o k)
    · exact ih h2 (eraseKey o hd)

theorem lookupObj_eraseKeys_not_mem {α : Type} (ks : List String) {k : String}
    (h : k ∉ ks) : ∀ o : Obj α, lookupObj (eraseKeys o ks) k = lookupObj o k := by
  induction ks with
  | nil => intro o; rfl
  | cons hd tl ih =>
    intro o
    have h1 : k ≠ hd := fun e => h (e ▸ List.mem_cons_self hd tl)
    have h2 : k ∉ tl := fun e => h (List.mem_cons_of_mem hd e)
    rw [show eraseKeys o (hd :: tl) = eraseKeys (eraseKey o hd) tl from rfl,
      ih h2, lookupObj_eraseKey_other o h1]

-- ── Translation Manager (`packages/sdk/src/i18n.tsx`) ──

/-- The per-locale translation table: `table[locale][key] = string`
(`TranslationMap` in `i18n.tsx`). -/
abbrev TranslationMap : Type := Obj (Obj String)

/-- Two-level read `table[locale]?.[key]`. -/
def lookupTr (tbl : TranslationMap) (loc key : String) : Option String :=
  (lookupObj tbl loc).bind (fun o => lookupObj o key)

/-- `addTranslations` from `I18nProvider`: for each locale of the delta,
`next[loc] = { ...next[loc], ...keys }` (spread of `undefined` is the
empty object). -/
def addTranslations (tbl : TranslationMap) (delta : TranslationMap) : TranslationMap :=
  delta.foldl
    (fun acc pr => setKey acc pr.1 (mergeObj ((lookupObj acc pr.1).getD []) pr.2))
    tbl

/-- `removeTranslations` from `I18nProvider`: for each locale of the delta
that is present, delete exactly the delta's keys from that locale's map. -/
def removeTranslations (tbl : TranslationMap) (delta : TranslationMap) : TranslationMap :=
  delta.foldl
    (fun acc pr =>
      match lookupObj acc pr.1 with
      | some o => setKey acc pr.1 (eraseKeys o (keysOf pr.2))
      | none => acc)
    tbl

/-- The i18n provider state: the `locale` React state (seeded from the
`defaultLocale` prop), the `defaultLocale` prop itself, and the
translation table. -/
structure I18nState where
  locale : String
  defaultLocale : String
  translations : TranslationMap

/-- Initial `I18nProvider` state: `useState(defaultLocale)` and
`useState(defaultTranslations)`. -/
def initI18n (defaultLocale : String) (defaultTranslations : TranslationMap) : I18nState :=
  { locale := defaultLocale
    defaultLocale := defaultLocale
    translations := defaultTranslations }

/-- `setLocale`. -/
def setLocale (st : I18nState) (l : String) : I18nState :=
  { st with locale := l }

/-- The resolution step of `t` before parameter substitution:
`translations[locale]?.[key] ?? translations['en']?.[key] ?? key`.
Note the hard-coded `'en'` in the source. -/
def tResolve (st : I18nState) (key : String) : String :=
  match lookupTr st.translations st.locale key with
  | some v => v
  | none =>
    match lookupTr st.translations "en" key with
    | some v => v
    | none => key

-- ── Parameter substitution (`value.replace` in `t`) ──

/-- JS `value.replace(pat, repl)` with a *string* pattern: replace only the
first (leftmost) occurrence of `pat`, or return the string unchanged when
`pat` does not occur. Strings are handled as character lists. -/
def replaceFirst (pat repl : List Char) : List Char → List Char
  | [] => if pat = [] then repl else []
  | c :: rest =>
    if pat.isPrefixOf (c :: rest) then repl ++ (c :: rest).drop pat.length
    else c :: replaceFirst pat repl rest

/-- Index of the first occurrence of `pat` (`String.prototype.indexOf`). -/
def findSub (pat : List Char) : List Char → Option Nat
  | [] => if pat = [] then some 0 else none
  | c :: rest =>
    if pat.isPrefixOf (c :: rest) then some 0
    else (findSub pat rest).map (· + 1)

/-- The template literal `` `{{param}}` `` built by `t`. -/
def paramToken (p : String) : List Char :=
  "\x7b\x7b".data ++ p.data ++ "\x7d\x7d".data

/-- The `for (const [param, replacement] of Object.entries(params))` loop
of `t`: one `value.replace` per parameter, applied sequentially. -/
def substParams (params : Obj String) (value : List Char) : List Char :=
  params.foldl (fun acc pr => replaceFirst (paramToken pr.1) pr.2.data acc) value

/-- The full `t(key, params?)` of `I18nProvider`. -/
def tFun (st : I18nState) (key : String) (params : Option (Obj String)) : List Char :=
  match params with
  | none => (tResolve st key).data
  | some ps => substParams ps (tResolve st key).data

theorem replaceFirst_eq_findSub (pat repl : List Char) : ∀ s : List Char,
    replaceFirst pat repl s =
      match findSub pat s with
      | some i => s.take i ++ repl ++ s.drop (i + pat.length)
      | none => s := by
  intro s
  induction s with
  | nil =>
    by_cases h : pat = []
    · simp [replaceFirst, findSub, h]
    · simp [replaceFirst, findSub, h]
  | cons c rest ih =>
    by_cases h : pat.isPrefixOf (c :: rest)
    · simp [replaceFirst, findSub, h]
    · simp only [replaceFirst, findSub, h, if_false, ih]
      cases hf : findSub pat rest with
      | none => simp
      | some j =>
        simp [List.take_succ_cons, Nat.add_right_comm j 1 pat.length,
          List.drop_succ_cons]

theorem findSub_first_occurrence (pat : List Char) : ∀ (s : List Char) (i : Nat),
    findSub pat s = some i →
      pat.isPrefixOf (s.drop i) = true ∧
      ∀ j, j < i → pat.isPrefixOf (s.drop j) = false := by
  intro s
  induction s with
  | nil =>
    intro i h
    by_cases hp : pat = []
    · simp only [findSub, hp, if_true, Option.some.injEq] at h
      subst h
      constructor
      · simp [hp, List.isPrefixOf]
      · intro j hj; omega
    · simp [findSub, hp] at h
  | cons c rest ih =>
    intro i h
    by_cases hp : pat.isPrefixOf (c :: rest)
    · simp only [findSub, hp, if_true, Option.some.injEq] at h
      subst h
      exact ⟨by simpa using hp, fun j hj => by omega⟩
    · simp only [findSub, hp, if_false] at h
      cases hf : findSub pat rest with
      | none => rw [hf] at h; simp at h
      | some j =>
        rw [hf] at h
        simp at h
        subst h
        obtain ⟨h1, h2⟩ := ih j hf
        refine ⟨by simpa using h1, ?_⟩
        intro j' hj'
        cases j' with
        | zero =>
          simp only [List.drop_zero]
          exact Bool.eq_false_iff.mpr hp
        | succ j'' =>
          simpa using h2 j'' (by omega)

-- ── Plugin data model (`packages/sdk/src/types`) ──

/-- The six slot positions of `SlotConfig.position`. -/
inductive SlotPosition where
  | append
  | prepend
  | replace
  | before
  | after
  | wrap
deriving DecidableEq, Repr

/-- A slot contribution descriptor (`SlotConfig<TContext>`); `κ` is the
context type `TContext`.  `priority` is `none` when absent (resolver
default 0), `condition` is the optional predicate on the render context,
`pluginName` models the internal `_pluginName` tag used by the error
boundary.  `props` are irrelevant to every claim and omitted. -/
structure SlotConfig (κ : Type) where
  name : String
  position : SlotPosition
  component : String
  priority : Option Int := none
  condition : Option (κ → Bool) := none
  pluginName : Option String := none

/-- A route descriptor.  `rid` is an identity token modelling JS object
reference identity: route objects created at different times are distinct
references even when their fields coincide, and `Array.prototype.includes`
compares references. -/
structure RouteConfig where
  rid : Nat
  path : String := ""
  component : String := ""
deriving DecidableEq, Repr

/-- A plugin manifest.  Lifecycle hooks are modelled by their observable
outcome: `none` = hook absent, `some true` = hook settles successfully,
`some false` = hook throws or rejects. -/
structure PluginManifest (κ : Type) where
  name : String
  slots : Option (List (SlotConfig κ)) := none
  routes : Option (List RouteConfig) := none
  components : Option (Obj Nat) := none
  translations : Option TranslationMap := none
  onInit : Option Bool := none
  onDestroy : Option Bool := none
  enabled : Option Bool := none

/-- A plugin module as consumed by the loaders:
`{ manifest, components }`. -/
structure PluginModule (κ : Type) where
  manifest : PluginManifest κ
  components : Obj Nat

variable {κ : Type}

-- ── Registry Store (`plugin/PluginRegistryProvider.tsx`) ──

/-- The state owned by `PluginRegistryProvider` in
`plugin/PluginRegistryProvider.tsx` (plus the translation table it
mutates through `useTranslation`): the `plugins` map in insertion order,
the merged component bundle, the route list, and the translation table. -/
structure RegistryState (κ : Type) where
  plugins : List (String × PluginManifest κ)
  components : Obj Nat
  routes : List RouteConfig
  translations : TranslationMap

/-- `loadPluginFromManifest(manifest, pluginComponents)`: warn-and-return
on a duplicate name; abort when `onInit` throws; otherwise add the
manifest to `plugins`, spread the bundle into `components`, append
`manifest.routes`, and merge `manifest.translations`. -/
def loadPluginFromManifest (m : PluginManifest κ) (pluginComponents : Obj Nat)
    (s : RegistryState κ) : RegistryState κ :=
  if (lookupObj s.plugins m.name).isSome then s
  else if m.onInit = some false then s
  else
    { plugins := setKey s.plugins m.name m
      components := mergeObj s.components pluginComponents
      routes :=
        match m.routes with
        | some rs => s.routes ++ rs
        | none => s.routes
      translations :=
        match m.translations with
        | some tr => addTranslations s.translations tr
        | none => s.translations }

/-- `unloadPlugin(pluginId)`: no-op when absent; `onDestroy` failure is
logged but removal proceeds; remove the plugin from `plugins`, delete the
keys of the plugin's *own* `manifest.components` from the bundle, filter
out the routes contained (by reference) in `manifest.routes`, and
withdraw `manifest.translations`. -/
def unloadPlugin (pluginId : String) (s : RegistryState κ) : RegistryState κ :=
  match lookupObj s.plugins pluginId with
  | none => s
  | some m =>
    { plugins := eraseKey s.plugins pluginId
      components :=
        match m.components with
        | some mc => eraseKeys s.components (keysOf mc)
        | none => s.components
      routes :=
        match m.routes with
        | some rs => s.routes.filter (fun r => !(rs.contains r))
        | none => s.routes
      translations :=
        match m.translations with
        | some tr => removeTranslations s.translations tr
        | none => s.translations }

/-- One remote import inside `loadAllPlugins`:
`await import(backendUrl + entry)` either resolves to a plugin module or
rejects.  Module resolution is an external collaborator, so its outcome
is an input of the model. -/
abbrev ImportResult (κ : Type) : Type := Except Unit (PluginModule κ)

/-- Whether an import rejected. -/
def importFailed : ImportResult κ → Bool
  | Except.ok _ => false
  | Except.error _ => true

/-- The registry state after `loadAllPlugins` settles: every module that
imported successfully has been loaded (through `loadPluginFromUrl` →
`loadPluginFromModule` → `loadPluginFromManifest`), in list order (one
interleaving of the concurrent loads); rejected imports contribute
nothing. -/
def loadAllPluginsState (imports : List (ImportResult κ)) (s : RegistryState κ) :
    RegistryState κ :=
  imports.foldl
    (fun acc i =>
      match i with
      | Except.ok md => loadPluginFromManifest md.manifest md.components acc
      | Except.error _ => acc)
    s

/-- The outcome of `await Promise.all(pluginList.map(async … ))` inside
`loadAllPlugins`: there is no per-plugin catch, so the combined promise
rejects as soon as any import rejects, while the state effects of the
successful loads persist. -/
def loadAllPluginsRun (imports : List (ImportResult κ)) (s : RegistryState κ) :
    Except Unit (RegistryState κ) :=
  if imports.any importFailed then Except.error ()
  else Except.ok (loadAllPluginsState imports s)

-- ── Registry Store with enable/disable (`react.tsx` provider) ──

/-- `Set.add`: insertion-ordered, duplicate-free. -/
def addSet (s : List String) (x : String) : List String :=
  if x ∈ s then s else s ++ [x]

/-- `Set.delete`. -/
def eraseSet (s : List String) (x : String) : List String :=
  s.filter (fun y => !(y == x))

/-- The state owned by the `PluginRegistryProvider` of `react.tsx`: the
`plugins` map in insertion order, the merged component bundle, and the
`enabledPlugins` set. -/
structure ReactRegistryState (κ : Type) where
  plugins : List (String × PluginManifest κ)
  components : Obj Nat
  enabled : List String

/-- `registerPlugin(manifest, pluginComponents)` of `react.tsx`: abort
when `onInit` throws; otherwise `Map.set` the manifest, spread the bundle
into `components`, and add the name to `enabledPlugins` unless
`manifest.enabled === false`. -/
def registerPlugin (m : PluginManifest κ) (pluginComponents : Obj Nat)
    (s : ReactRegistryState κ) : ReactRegistryState κ :=
  if m.onInit = some false then s
  else
    { plugins := setKey s.plugins m.name m
      components := mergeObj s.components pluginComponents
      enabled :=
        if m.enabled = some false then s.enabled
        else addSet s.enabled m.name }

/-- `unregisterPlugin(pluginName)` of `react.tsx`. -/
def unregisterPlugin (pluginName : String) (s : ReactRegistryState κ) :
    ReactRegistryState κ :=
  match lookupObj s.plugins pluginName with
  | none => s
  | some m =>
    { plugins := eraseKey s.plugins pluginName
      components :=
        match m.components with
        | some mc => eraseKeys s.components (keysOf mc)
        | none => s.components
      enabled := eraseSet s.enabled pluginName }

/-- `enablePlugin(pluginName)`: adds to the enabled set unconditionally —
no check that the name is registered. -/
def enablePlugin (s : ReactRegistryState κ) (pluginName : String) :
    ReactRegistryState κ :=
  { s with enabled := addSet s.enabled pluginName }

/-- `disablePlugin(pluginName)`. -/
def disablePlugin (s : ReactRegistryState κ) (pluginName : String) :
    ReactRegistryState κ :=
  { s with enabled := eraseSet s.enabled pluginName }

/-- `isPluginEnabled(pluginName)`: membership in `enabledPlugins`. -/
def isPluginEnabled (s : ReactRegistryState κ) (pluginName : String) : Bool :=
  s.enabled.contains pluginName

-- ── Slot Resolver (`getSlots` in `react.tsx`) ──

/-- `slot.priority || 0`. -/
def priOf (slot : SlotConfig κ) : Int :=
  slot.priority.getD 0

/-- The filter predicate inside `getSlots`: name must match, and the
condition, when present, must hold for the context. -/
def slotMatches (slotName : String) (ctx : κ) (slot : SlotConfig κ) : Bool :=
  slot.name == slotName &&
    (match slot.condition with
     | some c => c ctx
     | none => true)

/-- One plugin's matching slots (`plugin.slots.filter(...)`). -/
def matchingSlots (slotName : String) (ctx : κ) (p : PluginManifest κ) :
    List (SlotConfig κ) :=
  match p.slots with
  | some sl => sl.filter (slotMatches slotName ctx)
  | none => []

/-- The accumulation loop of `getSlots`: iterate `plugins` in insertion
order, skip names outside `enabledPlugins`, and push each plugin's
matching slots. -/
def accumulateSlots (s : ReactRegistryState κ) (slotName : String) (ctx : κ) :
    List (SlotConfig κ) :=
  s.plugins.foldl
    (fun acc pr =>
      if pr.1 ∈ s.enabled then acc ++ matchingSlots slotName ctx pr.2 else acc)
    []

/-- The comparator `(a, b) => (b.priority || 0) - (a.priority || 0)`
expressed as the corresponding "may precede" relation: `a` may stay
before `b` exactly when the comparator is `≤ 0`. -/
def slotLE (a b : SlotConfig κ) : Bool :=
  decide (priOf b ≤ priOf a)

/-- `slots.sort(comparator)`.  ECMAScript (2019+) requires
`Array.prototype.sort` to be stable, and a stable sort for a total
preorder has a unique result, so the stable `List.mergeSort` computes
exactly the array produced by the engine. -/
def sortSlots (slots : List (SlotConfig κ)) : List (SlotConfig κ) :=
  slots.mergeSort slotLE

/-- `getSlots(slotName, context)` of the `react.tsx` provider. -/
def getSlots (s : ReactRegistryState κ) (slotName : String) (ctx : κ) :
    List (SlotConfig κ) :=
  sortSlots (accumulateSlots s slotName ctx)

-- ── Batch loader (`PluginLoader` in the legacy components file) ──

/-- What a dynamically imported module may expose to `PluginLoader`:
either field can be missing, which the loader turns into a caught,
per-plugin error. -/
structure LoaderModule (κ : Type) where
  manifest : Option (PluginManifest κ)
  components : Option (Obj Nat)

/-- One iteration of the `plugins.map(async (plugin) => { try … catch })`
loop of `PluginLoader`: a missing manifest or bundle throws and is caught
(state untouched, `onError` fired); otherwise `registerPlugin` runs
(which never rejects — its own `onInit` failures are caught inside) and
the manifest's translations are added.  The state is the `react.tsx`
registry paired with the i18n table. -/
def pluginLoaderStep (st : ReactRegistryState κ × TranslationMap)
    (item : LoaderModule κ) : ReactRegistryState κ × TranslationMap :=
  match item.manifest, item.components with
  | some m, some comps =>
    (registerPlugin m comps st.1,
      match m.translations with
      | some tr => addTranslations st.2 tr
      | none => st.2)
  | _, _ => st

/-- The whole `PluginLoader` batch (one interleaving of the concurrent
per-plugin promises; each is independent and caught, so the combined
`Promise.all` always resolves). -/
def pluginLoaderRun (items : List (LoaderModule κ))
    (st : ReactRegistryState κ × TranslationMap) :
    ReactRegistryState κ × TranslationMap :=
  items.foldl pluginLoaderStep st

-- ── Composition Renderer (`Slot` in `react.tsx`) ──

/-- The shape of the render tree produced by `Slot`.  `nullNode` is the
`null` returned for a missing component; `elem name children` is a
rendered plugin component (props are irrelevant to the claims and
omitted); `boundary plugin comp child` is the `PluginErrorBoundary`;
`frag` a React fragment; `container` the `as` container element. -/
inductive RNode where
  | nullNode : RNode
  | elem : String → List RNode → RNode
  | boundary : String → String → RNode → RNode
  | frag : List RNode → RNode
  | container : List RNode → RNode

/-- `renderSlot` inside `Slot`: warn and render `null` when the
descriptor's component key is absent from the bundle, else render the
component inside a `PluginErrorBoundary`. -/
def renderSlot (comps : Obj Nat) (slot : SlotConfig κ) : RNode :=
  match lookupObj comps slot.component with
  | none => RNode.nullNode
  | some _ =>
    RNode.boundary (slot.pluginName.getD "unknown") slot.component
      (RNode.elem slot.component [])

/-- One step of the wrap loop: a wrapper whose component is missing is
skipped, otherwise the current content becomes the wrapper's sole
`children`, inside a `PluginErrorBoundary`. -/
def wrapStep (comps : Obj Nat) (slot : SlotConfig κ) (content : RNode) : RNode :=
  match lookupObj comps slot.component with
  | none => content
  | some _ =>
    RNode.boundary (slot.pluginName.getD "unknown") slot.component
      (RNode.elem slot.component [content])

/-- `wrapSlots.reverse().forEach(...)`: a left fold over the reversed
wrap bucket. -/
def applyWraps (comps : Obj Nat) (wraps : List (SlotConfig κ)) (content : RNode) :
    RNode :=
  wraps.reverse.foldl (fun acc slot => wrapStep comps slot acc) content

/-- The `position === p` bucket filter of `Slot`. -/
def bucket (slots : List (SlotConfig κ)) (p : SlotPosition) : List (SlotConfig κ) :=
  slots.filter (fun s => s.position == p)

/-- The full `Slot` composition over an already-resolved descriptor list:
bucket by position; core content is the `replace` bucket alone when
non-empty, else `before ++ children ++ after`; apply the wrap bucket;
emit `prepend ++ [container core] ++ append`. -/
def slotRender (comps : Obj Nat) (slots : List (SlotConfig κ)) (children : RNode) :
    List RNode :=
  let content :=
    if (bucket slots SlotPosition.replace).isEmpty then
      RNode.frag
        ((bucket slots SlotPosition.before).map (renderSlot comps)
          ++ [children]
          ++ (bucket slots SlotPosition.after).map (renderSlot comps))
    else RNode.frag ((bucket slots SlotPosition.replace).map (renderSlot comps))
  let wrapped := applyWraps comps (bucket slots SlotPosition.wrap) content
  (bucket slots SlotPosition.prepend).map (renderSlot comps)
    ++ [RNode.container [wrapped]]
    ++ (bucket slots SlotPosition.append).map (renderSlot comps)

-- ── Basic facts about the enabled set ──

theorem mem_addSet_self (s : List String) (x : String) : x ∈ addSet s x := by
  by_cases h : x ∈ s
  · rw [addSet, if_pos h]; exact h
  · simp [addSet, h]

theorem mem_eraseSet {s : List String} {x y : String} :
    y ∈ eraseSet s x ↔ y ∈ s ∧ y ≠ x := by
  simp [eraseSet, List.mem_filter]

-- ── Claims ──

/-- Claim C10.  `enablePlugin` adds a name to the enabled set without checking
registration: for every registry state and name `n` that is not in the
plugins map, after `enablePlugin(n)` the name reports enabled while still
absent from the plugins map — so `enabled ⊆ domain(plugins)` is not an
invariant maintained by every operation. -/
theorem enablePlugin_ignores_registration (s : ReactRegistryState κ) (n : String)
    (h : lookupObj s.plugins n = none) :
    isPluginEnabled (enablePlugin s n) n = true ∧
    lookupObj (enablePlugin s n).plugins n = none := by
  refine ⟨?_, h⟩
  have hm : n ∈ addSet s.enabled n := mem_addSet_self s.enabled n
  simp only [isPluginEnabled, enablePlugin]
  exact List.elem_eq_true_of_mem hm

theorem enablePlugin_ignores_registration_witness :
    isPluginEnabled (enablePlugin (⟨[], [], []⟩ : ReactRegistryState Unit) "ghost") "ghost"
        = true ∧
    lookupObj (enablePlugin (⟨[], [], []⟩ : ReactRegistryState Unit) "ghost").plugins "ghost"
        = none :=
  enablePlugin_ignores_registration ⟨[], [], []⟩ "ghost" rfl

/-- Claim C4.  When a manifest's `onInit` hook throws or rejects,
`loadPluginFromManifest` aborts atomically: the whole registry state
(plugins map, component bundle, route list, translation table) is
unchanged, and in particular the plugin is not in the plugins map. -/
theorem loadPluginFromManifest_onInit_failure (s : RegistryState κ)
    (m : PluginManifest κ) (B : Obj Nat)
    (hinit : m.onInit = some false)
    (hfresh : lookupObj s.plugins m.name = none) :
    loadPluginFromManifest m B s = s ∧
    lookupObj (loadPluginFromManifest m B s).plugins m.name = none := by
  have h : loadPluginFromManifest m B s = s := by
    simp [loadPluginFromManifest, hinit, hfresh]
  exact ⟨h, by rw [h]; exact hfresh⟩

theorem loadPluginFromManifest_onInit_failure_witness :
    loadPluginFromManifest
        ({ name := "crasher", onInit := some false,
           components := some [("C", 7)] } : PluginManifest Unit)
        [("C", 7)] ⟨[], [], [], []⟩
      = ⟨[], [], [], []⟩ ∧
    lookupObj
        (loadPluginFromManifest
          ({ name := "crasher", onInit := some false,
             components := some [("C", 7)] } : PluginManifest Unit)
          [("C", 7)] ⟨[], [], [], []⟩).plugins "crasher"
      = none :=
  loadPluginFromManifest_onInit_failure ⟨[], [], [], []⟩ _ _ rfl rfl

/-- Claim C5.  The wrap loop is a fold-right over the resolved wrap bucket:
`wrapSlots.reverse().forEach` equals `List.foldr` of the single wrap
step, and whenever the first (highest-priority) wrap descriptor's
component is present in the bundle, that descriptor becomes the outermost
wrapper, with the composition of the remaining wrap entries as its sole
child. -/
theorem applyWraps_foldr (comps : Obj Nat) :
    (∀ (wraps : List (SlotConfig κ)) (content : RNode),
      applyWraps comps wraps content = wraps.foldr (wrapStep comps) content) ∧
    (∀ (w : SlotConfig κ) (ws : List (SlotConfig κ)) (content : RNode),
      (lookupObj comps w.component).isSome = true →
      applyWraps comps (w :: ws) content =
        RNode.boundary (w.pluginName.getD "unknown") w.component
          (RNode.elem w.component [applyWraps comps ws content])) := by
  have h1 : ∀ (wraps : List (SlotConfig κ)) (content : RNode),
      applyWraps comps wraps content = wraps.foldr (wrapStep comps) content := by
    intro wraps content
    rw [applyWraps, List.foldl_reverse]
  refine ⟨h1, ?_⟩
  intro w ws content hw
  obtain ⟨v, hv⟩ := Option.isSome_iff_exists.mp hw
  rw [h1, List.foldr_cons, ← h1]
  simp [wrapStep, hv]

theorem applyWraps_foldr_witness :
    (lookupObj [("W1", 1), ("W2", 2)] "W1").isSome = true ∧
    applyWraps [("W1", 1), ("W2", 2)]
        [({ name := "s", position := SlotPosition.wrap, component := "W1",
            priority := some 10 } : SlotConfig Unit),
         { name := "s", position := SlotPosition.wrap, component := "W2",
            priority := some 5 }]
        (RNode.elem "core" [])
      = RNode.boundary "unknown" "W1"
          (RNode.elem "W1"
            [applyWraps [("W1", 1), ("W2", 2)]
              [({ name := "s", position := SlotPosition.wrap, component := "W2",
                  priority := some 5 } : SlotConfig Unit)]
              (RNode.elem "core" [])]) :=
  ⟨rfl,
    (applyWraps_foldr [("W1", 1), ("W2", 2)]).2
      { name := "s", position := SlotPosition.wrap, component := "W1",
        priority := some 10 }
      [{ name := "s", position := SlotPosition.wrap, component := "W2",
         priority := some 5 }]
      (RNode.elem "core" []) rfl⟩

/-- Claim C6.  When the replace bucket is non-empty, the composed core content
is exactly the render of the replace bucket — the slot's default content
(`children`) and the before/after buckets do not occur in the output, and
the output is independent of `children` — while the final tree is still
the prepend bucket, then the container holding the (possibly wrapped)
core, then the append bucket. -/
theorem slotRender_replace_discards_default (comps : Obj Nat)
    (slots : List (SlotConfig κ))
    (h : (bucket slots SlotPosition.replace).isEmpty = false) :
    (∀ children, slotRender comps slots children =
      (bucket slots SlotPosition.prepend).map (renderSlot comps)
        ++ [RNode.container
              [applyWraps comps (bucket slots SlotPosition.wrap)
                (RNode.frag
                  ((bucket slots SlotPosition.replace).map (renderSlot comps)))]]
        ++ (bucket slots SlotPosition.append).map (renderSlot comps)) ∧
    (∀ c₁ c₂ : RNode, slotRender comps slots c₁ = slotRender comps slots c₂) := by
  have h1 : ∀ children, slotRender comps slots children =
      (bucket slots SlotPosition.prepend).map (renderSlot comps)
        ++ [RNode.container
              [applyWraps comps (bucket slots SlotPosition.wrap)
                (RNode.frag
                  ((bucket slots SlotPosition.replace).map (renderSlot comps)))]]
        ++ (bucket slots SlotPosition.append).map (renderSlot comps) := by
    intro children
    simp [slotRender, h]
  exact ⟨h1, fun c₁ c₂ => (h1 c₁).trans (h1 c₂).symm⟩

theorem slotRender_replace_discards_default_witness :
    (bucket
        [({ name := "s", position := SlotPosition.replace,
            component := "R" } : SlotConfig Unit),
         { name := "s", position := SlotPosition.before, component := "B" }]
        SlotPosition.replace).isEmpty = false ∧
    slotRender [("R", 1), ("B", 2)]
        [({ name := "s", position := SlotPosition.replace,
            component := "R" } : SlotConfig Unit),
         { name := "s", position := SlotPosition.before, component := "B" }]
        (RNode.elem "default" [])
      = slotRender [("R", 1), ("B", 2)]
        [({ name := "s", position := SlotPosition.replace,
            component := "R" } : SlotConfig Unit),
         { name := "s", position := SlotPosition.before, component := "B" }]
        RNode.nullNode :=
  ⟨rfl,
    (slotRender_replace_discards_default [("R", 1), ("B", 2)]
        [{ name := "s", position := SlotPosition.replace, component := "R" },
         { name := "s", position := SlotPosition.before, component := "B" }]
        rfl).2
      (RNode.elem "default" []) RNode.nullNode⟩

-- ── C8: locale fallback ──

/-- Claim C8 counterexample.  With configured default locale `"fr"` (used to
seed `locale`), current locale switched to `"de"`, and a translation for
`greet` present under `"fr"` but not `"de"` or `"en"`, the claim says
`t("greet")` returns `table["fr"]["greet"] = "bonjour"`; the code falls
back to the hard-coded literal `'en'` and returns the raw key. -/
theorem tResolve_ignores_configured_default :
    (setLocale (initI18n "fr" [("fr", [("greet", "bonjour")])]) "de").defaultLocale
        = "fr" ∧
    (setLocale (initI18n "fr" [("fr", [("greet", "bonjour")])]) "de").locale = "de" ∧
    lookupTr [("fr", [("greet", "bonjour")])] "de" "greet" = none ∧
    lookupTr [("fr", [("greet", "bonjour")])] "fr" "greet" = some "bonjour" ∧
    tResolve (setLocale (initI18n "fr" [("fr", [("greet", "bonjour")])]) "de") "greet"
        = "greet" ∧
    "greet" ≠ "bonjour" := by
  refine ⟨rfl, rfl, rfl, rfl, rfl, ?_⟩
  decide

/-- Claim C8 amended.  `t` resolves `table[locale][key]`, falling back to
`table['en'][key]` — the literal locale `'en'`, not the configured
default locale — falling back to the raw key itself. -/
theorem tResolve_fallback_chain (st : I18nState) (key : String) :
    (∀ v, lookupTr st.translations st.locale key = some v → tResolve st key = v) ∧
    (lookupTr st.translations st.locale key = none →
      (∀ v, lookupTr st.translations "en" key = some v → tResolve st key = v) ∧
      (lookupTr st.translations "en" key = none → tResolve st key = key)) := by
  constructor
  · intro v hv
    simp [tResolve, hv]
  · intro h0
    constructor
    · intro v hv
      simp [tResolve, h0, hv]
    · intro h1
      simp [tResolve, h0, h1]

theorem tResolve_fallback_chain_witness :
    tResolve (setLocale (initI18n "en" [("de", [("greet", "hallo")]),
        ("en", [("greet", "hello")])]) "de") "greet" = "hallo" ∧
    tResolve (setLocale (initI18n "en" [("en", [("greet", "hello")])]) "de") "greet"
        = "hello" ∧
    tResolve (setLocale (initI18n "en" []) "de") "greet" = "greet" :=
  ⟨(tResolve_fallback_chain
      (setLocale (initI18n "en" [("de", [("greet", "hallo")]),
        ("en", [("greet", "hello")])]) "de") "greet").1 "hallo" rfl,
    ((tResolve_fallback_chain
      (setLocale (initI18n "en" [("en", [("greet", "hello")])]) "de") "greet").2
        rfl).1 "hello" rfl,
    ((tResolve_fallback_chain
      (setLocale (initI18n "en" []) "de") "greet").2 rfl).2 rfl⟩

-- ── C9: parameter substitution ──

/-- Claim C9 counterexample.  JS `String.prototype.replace` with a string
pattern replaces only the first occurrence: with resolved string
`"{{n}} and {{n}}"` and params `{ n: "A" }`, `t` yields
`"A and {{n}}"`, not the claim's `"A and A"` (every occurrence). -/
theorem tFun_leaves_second_occurrence :
    tFun (initI18n "en"
        [("en", [("greet", "\x7b\x7bn\x7d\x7d and \x7b\x7bn\x7d\x7d")])])
        "greet" (some [("n", "A")])
      = "A and \x7b\x7bn\x7d\x7d".data ∧
    "A and \x7b\x7bn\x7d\x7d".data ≠ "A and A".data := by
  constructor
  · decide
  · decide

/-- Claim C9 amended.  For each parameter, in `Object.entries` order, only the
first (leftmost) literal occurrence of its `{{paramName}}` token in the
current value is substituted; later occurrences are left unchanged.
`findSub` computes exactly the position of that leftmost occurrence. -/
theorem tFun_substitutes_first_occurrences (st : I18nState) (key : String)
    (params : Obj String) :
    tFun st key (some params) =
      params.foldl
        (fun v pr =>
          match findSub (paramToken pr.1) v with
          | some i => v.take i ++ pr.2.data ++ v.drop (i + (paramToken pr.1).length)
          | none => v)
        ((tResolve st key).data) ∧
    (∀ (pat s : List Char) (i : Nat), findSub pat s = some i →
      pat.isPrefixOf (s.drop i) = true ∧
      ∀ j, j < i → pat.isPrefixOf (s.drop j) = false) := by
  constructor
  · show substParams params ((tResolve st key).data) = _
    rw [substParams]
    have hstep :
        (fun (acc : List Char) (pr : String × String) =>
            replaceFirst (paramToken pr.1) pr.2.data acc) =
          fun (v : List Char) (pr : String × String) =>
            match findSub (paramToken pr.1) v with
            | some i => v.take i ++ pr.2.data ++ v.drop (i + (paramToken pr.1).length)
            | none => v := by
      funext v pr
      exact replaceFirst_eq_findSub (paramToken pr.1) pr.2.data v
    rw [hstep]
  · exact fun pat s i h => findSub_first_occurrence pat s i h

theorem tFun_substitutes_first_occurrences_witness :
    tFun (initI18n "en"
        [("en", [("greet", "\x7b\x7bn\x7d\x7d and \x7b\x7bn\x7d\x7d")])])
        "greet" (some [("n", "A")]) =
      [("n", "A")].foldl
        (fun v pr =>
          match findSub (paramToken pr.1) v with
          | some i => v.take i ++ pr.2.data ++ v.drop (i + (paramToken pr.1).length)
          | none => v)
        ((tResolve (initI18n "en"
          [("en", [("greet", "\x7b\x7bn\x7d\x7d and \x7b\x7bn\x7d\x7d")])])
          "greet").data) ∧
    ("\x7b\x7bn\x7d\x7d".data.isPrefixOf
        (("\x7b\x7bn\x7d\x7d and \x7b\x7bn\x7d\x7d".data).drop 0) = true ∧
      ∀ j, j < 0 →
        "\x7b\x7bn\x7d\x7d".data.isPrefixOf
          (("\x7b\x7bn\x7d\x7d and \x7b\x7bn\x7d\x7d".data).drop j) = false) :=
  ⟨(tFun_substitutes_first_occurrences
      (initI18n "en"
        [("en", [("greet", "\x7b\x7bn\x7d\x7d and \x7b\x7bn\x7d\x7d")])])
      "greet" [("n", "A")]).1,
    (tFun_substitutes_first_occurrences
      (initI18n "en"
        [("en", [("greet", "\x7b\x7bn\x7d\x7d and \x7b\x7bn\x7d\x7d")])])
      "greet" [("n", "A")]).2
      "\x7b\x7bn\x7d\x7d".data "\x7b\x7bn\x7d\x7d and \x7b\x7bn\x7d\x7d".data 0
      (by decide)⟩

-- ── C3: batch loading ──

theorem pluginLoaderStep_invalid (st : ReactRegistryState κ × TranslationMap)
    (bad : LoaderModule κ) (h : bad.manifest = none ∨ bad.components = none) :
    pluginLoaderStep st bad = st := by
  rcases bad with ⟨bm, bc⟩
  rcases h with h | h
  · cases bm with
    | none => cases bc <;> rfl
    | some m => simp at h
  · cases bc with
    | none => cases bm <;> rfl
    | some c => simp at h

/-- Claim C3 counterexample.  `loadAllPlugins` awaits a bare `Promise.all` with
no per-plugin catch: a batch containing one successful import and one
rejected import rejects as a whole (the batch operation fails), even
though the claim says one failing plugin never causes the whole batch
operation to fail.  (The successful plugin is still loaded.) -/
theorem loadAllPlugins_rejects_on_single_failure :
    loadAllPluginsRun
        [Except.ok ⟨{ name := "p1" }, []⟩, Except.error ()]
        (⟨[], [], [], []⟩ : RegistryState Unit)
      = Except.error () ∧
    lookupObj
        (loadAllPluginsState
          [Except.ok ⟨{ name := "p1" }, []⟩, Except.error ()]
          (⟨[], [], [], []⟩ : RegistryState Unit)).plugins "p1"
      = some { name := "p1" } :=
  ⟨rfl, rfl⟩

/-- Claim C3 amended.  Plugins already loaded in a batch are never rolled back
by another plugin's failure, and in the legacy `PluginLoader` each
plugin's failure is caught individually so the batch continues past it;
but in `loadAllPlugins` a single rejected import is not caught
per-plugin: the whole `loadAllPlugins` promise rejects (while the state
effects of the successful loads persist). -/
theorem batch_load_failure_isolation :
    (∀ (pre post : List (ImportResult κ)) (e : Unit) (s : RegistryState κ),
      loadAllPluginsState (pre ++ Except.error e :: post) s =
        loadAllPluginsState post (loadAllPluginsState pre s)) ∧
    (∀ (imports : List (ImportResult κ)) (s : RegistryState κ),
      (∃ i ∈ imports, importFailed i = true) →
      loadAllPluginsRun imports s = Except.error ()) ∧
    (∀ (pre post : List (LoaderModule κ)) (bad : LoaderModule κ)
        (st : ReactRegistryState κ × TranslationMap),
      bad.manifest = none ∨ bad.components = none →
      pluginLoaderRun (pre ++ bad :: post) st =
        pluginLoaderRun post (pluginLoaderRun pre st)) := by
  refine ⟨?_, ?_, ?_⟩
  · intro pre post e s
    rw [loadAllPluginsState, List.foldl_append, List.foldl_cons]
    rfl
  · intro imports s h
    obtain ⟨i, hi, hfail⟩ := h
    rw [loadAllPluginsRun, if_pos (List.any_eq_true.mpr ⟨i, hi, hfail⟩)]
  · intro pre post bad st h
    rw [pluginLoaderRun, List.foldl_append, List.foldl_cons,
      pluginLoaderStep_invalid _ bad h]
    rfl

theorem batch_load_failure_isolation_witness :
    loadAllPluginsState
        ([Except.ok ⟨{ name := "p1" }, []⟩] ++ Except.error () ::
          [Except.ok ⟨{ name := "p2" }, []⟩])
        (⟨[], [], [], []⟩ : RegistryState Unit)
      = loadAllPluginsState [Except.ok ⟨{ name := "p2" }, []⟩]
          (loadAllPluginsState [Except.ok ⟨{ name := "p1" }, []⟩]
            (⟨[], [], [], []⟩ : RegistryState Unit)) ∧
    loadAllPluginsRun
        ([Except.ok ⟨{ name := "p1" }, []⟩, Except.error ()] :
          List (ImportResult Unit))
        ⟨[], [], [], []⟩
      = Except.error () ∧
    pluginLoaderRun
        ([⟨some { name := "p1" }, some []⟩] ++ (⟨none, some []⟩ : LoaderModule Unit) ::
          [⟨some { name := "p2" }, some []⟩])
        (⟨[], [], []⟩, [])
      = pluginLoaderRun [⟨some { name := "p2" }, some []⟩]
          (pluginLoaderRun [⟨some { name := "p1" }, some []⟩]
            ((⟨[], [], []⟩, []) : ReactRegistryState Unit × TranslationMap)) :=
  ⟨(batch_load_failure_isolation.1 [Except.ok ⟨{ name := "p1" }, []⟩]
      [Except.ok ⟨{ name := "p2" }, []⟩] () ⟨[], [], [], []⟩),
    (batch_load_failure_isolation.2.1 [Except.ok ⟨{ name := "p1" }, []⟩, Except.error ()]
      ⟨[], [], [], []⟩ ⟨Except.error (), by simp, rfl⟩),
    (batch_load_failure_isolation.2.2 [⟨some { name := "p1" }, some []⟩]
      [⟨some { name := "p2" }, some []⟩] ⟨none, some []⟩ (⟨[], [], []⟩, [])
      (Or.inl rfl))⟩

-- ── C7: resolver sort order and stability ──

theorem slotLE_trans (a b c : SlotConfig κ) :
    slotLE a b → slotLE b c → slotLE a c := by
  simp only [slotLE, decide_eq_true_eq]
  omega

theorem slotLE_total (a b : SlotConfig κ) : slotLE a b || slotLE b a := by
  simp only [slotLE, Bool.or_eq_true, decide_eq_true_eq]
  exact Int.le_total (priOf b) (priOf a)

/-- Claim C7.  The resolver output is the accumulated list (registration order,
then slot index order) sorted descending by `priority || 0`, stably: it
is pairwise non-increasing in priority, and for every priority value the
subsequence of entries with that priority is exactly the one of the
accumulated list — equal-priority entries keep their accumulation order,
so the entry from the earlier-registered plugin (and, within one plugin,
the earlier slot index) comes first. -/
theorem getSlots_sorted_descending_stable (s : ReactRegistryState κ)
    (slotName : String) (ctx : κ) :
    (getSlots s slotName ctx).Pairwise (fun a b => priOf b ≤ priOf a) ∧
    ∀ p : Int,
      (getSlots s slotName ctx).filter (fun sl => priOf sl == p) =
        (accumulateSlots s slotName ctx).filter (fun sl => priOf sl == p) := by
  constructor
  · have h : (List.mergeSort (accumulateSlots s slotName ctx) slotLE).Pairwise
        (fun a b => slotLE a b = true) :=
      List.sorted_mergeSort slotLE_trans slotLE_total (accumulateSlots s slotName ctx)
    exact h.imp (fun hab => of_decide_eq_true hab)
  · intro p
    set l := accumulateSlots s slotName ctx with hl
    set q : SlotConfig κ → Bool := fun sl => priOf sl == p with hq
    have hfilter_pair : (l.filter q).Pairwise (fun a b => slotLE a b = true) := by
      apply List.pairwise_of_forall_mem_list
      intro a ha b hb
      have hpa : priOf a = p := by
        have := (List.mem_filter.mp ha).2
        simpa [hq] using this
      have hpb : priOf b = p := by
        have := (List.mem_filter.mp hb).2
        simpa [hq] using this
      simp [slotLE, hpa, hpb]
    have hsub : List.Sublist (l.filter q) (l.mergeSort slotLE) :=
      List.sublist_mergeSort slotLE_trans slotLE_total hfilter_pair
        (List.filter_sublist l)
    have hsub2 :
        List.Sublist ((l.filter q).filter q) ((l.mergeSort slotLE).filter q) :=
      hsub.filter q
    rw [List.filter_eq_self.mpr (fun a ha => (List.mem_filter.mp ha).2)] at hsub2
    have hlen : ((l.mergeSort slotLE).filter q).length = (l.filter q).length :=
      ((List.mergeSort_perm l slotLE).filter q).length_eq
    exact (hsub2.eq_of_length hlen.symm).symm

-- ── C1: resolver filters by name, condition and enabledness ──

theorem slotMatches_spec {slotName : String} {ctx : κ} {slot : SlotConfig κ}
    (h : slotMatches slotName ctx slot = true) :
    slot.name = slotName ∧ ∀ c, slot.condition = some c → c ctx = true := by
  rw [slotMatches, Bool.and_eq_true] at h
  refine ⟨by simpa using h.1, ?_⟩
  intro c hc
  have h2 := h.2
  rw [hc] at h2
  exact h2

theorem mem_accumulateSlots {s : ReactRegistryState κ} {slotName : String}
    {ctx : κ} {slot : SlotConfig κ} :
    slot ∈ accumulateSlots s slotName ctx ↔
      ∃ pr, pr ∈ s.plugins ∧ pr.1 ∈ s.enabled ∧
        slot ∈ matchingSlots slotName ctx pr.2 := by
  rw [accumulateSlots]
  have aux : ∀ (plugins : List (String × PluginManifest κ))
      (acc : List (SlotConfig κ)),
      slot ∈ plugins.foldl
          (fun acc pr =>
            if pr.1 ∈ s.enabled then acc ++ matchingSlots slotName ctx pr.2
            else acc)
          acc ↔
        slot ∈ acc ∨ ∃ pr, pr ∈ plugins ∧ pr.1 ∈ s.enabled ∧
          slot ∈ matchingSlots slotName ctx pr.2 := by
    intro plugins
    induction plugins with
    | nil => simp
    | cons hd tl ih =>
      intro acc
      rw [List.foldl_cons]
      by_cases hen : hd.1 ∈ s.enabled
      · rw [if_pos hen, ih]
        constructor
        · rintro (hmem | ⟨pr, hpr, hprel, hprm⟩)
          · rcases List.mem_append.mp hmem with hmem | hmem
            · exact Or.inl hmem
            · exact Or.inr ⟨hd, List.mem_cons_self _ _, hen, hmem⟩
          · exact Or.inr ⟨pr, List.mem_cons_of_mem _ hpr, hprel, hprm⟩
        · rintro (hmem | ⟨pr, hpr, hprel, hprm⟩)
          · exact Or.inl (List.mem_append.mpr (Or.inl hmem))
          · rcases List.mem_cons.mp hpr with rfl | hpr
            · exact Or.inl (List.mem_append.mpr (Or.inr hprm))
            · exact Or.inr ⟨pr, hpr, hprel, hprm⟩
      · rw [if_neg hen, ih]
        constructor
        · rintro (hmem | ⟨pr, hpr, hprel, hprm⟩)
          · exact Or.inl hmem
          · exact Or.inr ⟨pr, List.mem_cons_of_mem _ hpr, hprel, hprm⟩
        · rintro (hmem | ⟨pr, hpr, hprel, hprm⟩)
          · exact Or.inl hmem
          · rcases List.mem_cons.mp hpr with rfl | hpr
            · exact absurd hprel hen
            · exact Or.inr ⟨pr, hpr, hprel, hprm⟩
  rw [aux s.plugins []]
  simp

/-- Claim C1.  `getSlots` returns only descriptors whose name equals the
requested slot, whose condition (when present) holds for the context,
and that come from a currently enabled registered plugin; and disabling a
plugin removes its contributions from resolution (so when no other
registered plugin contributes to the slot, resolution returns the empty
list) while the plugins map is untouched. -/
theorem getSlots_matching_enabled_only (s : ReactRegistryState κ)
    (slotName : String) (ctx : κ) :
    (∀ slot, slot ∈ getSlots s slotName ctx →
      slot.name = slotName ∧
      (∀ c, slot.condition = some c → c ctx = true) ∧
      ∃ pr, pr ∈ s.plugins ∧ pr.1 ∈ s.enabled ∧
        slot ∈ matchingSlots slotName ctx pr.2) ∧
    (∀ p, (∀ pr, pr ∈ s.plugins → pr.1 ≠ p → matchingSlots slotName ctx pr.2 = []) →
      getSlots (disablePlugin s p) slotName ctx = [] ∧
      (disablePlugin s p).plugins = s.plugins) := by
  constructor
  · intro slot hmem
    rw [getSlots, sortSlots, List.mem_mergeSort] at hmem
    obtain ⟨pr, hpr, hen, hms⟩ := mem_accumulateSlots.mp hmem
    have hmatch : slotMatches slotName ctx slot = true := by
      rw [matchingSlots] at hms
      cases hsl : pr.2.slots with
      | none => rw [hsl] at hms; cases hms
      | some sl =>
        rw [hsl] at hms
        exact (List.mem_filter.mp hms).2
    obtain ⟨hname, hcond⟩ := slotMatches_spec hmatch
    exact ⟨hname, hcond, pr, hpr, hen, hms⟩
  · intro p hothers
    refine ⟨?_, rfl⟩
    have hacc : accumulateSlots (disablePlugin s p) slotName ctx = [] := by
      rw [List.eq_nil_iff_forall_not_mem]
      intro slot hmem
      obtain ⟨pr, hpr, hen, hms⟩ := mem_accumulateSlots.mp hmem
      have hen' : pr.1 ∈ eraseSet s.enabled p := hen
      have hne : pr.1 ≠ p := (mem_eraseSet.mp hen').2
      have : matchingSlots slotName ctx pr.2 = [] := hothers pr hpr hne
      rw [this] at hms
      cases hms
    rw [getSlots, hacc, sortSlots, List.mergeSort_nil]

theorem getSlots_matching_enabled_only_witness :
    getSlots
        (disablePlugin
          (⟨[("theme",
              { name := "theme",
                slots := some
                  [{ name := "sidebar.footer", position := SlotPosition.prepend,
                     component := "T", priority := some 100 }] })],
            [("T", 1)], ["theme"]⟩ : ReactRegistryState Unit)
          "theme")
        "sidebar.footer" () = [] ∧
    (disablePlugin
        (⟨[("theme",
            { name := "theme",
              slots := some
                [{ name := "sidebar.footer", position := SlotPosition.prepend,
                   component := "T", priority := some 100 }] })],
          [("T", 1)], ["theme"]⟩ : ReactRegistryState Unit)
        "theme").plugins
      = [("theme",
          { name := "theme",
            slots := some
              [{ name := "sidebar.footer", position := SlotPosition.prepend,
                 component := "T", priority := some 100 }] })] :=
  ((getSlots_matching_enabled_only
      (⟨[("theme",
          { name := "theme",
            slots := some
              [{ name := "sidebar.footer", position := SlotPosition.prepend,
                 component := "T", priority := some 100 }] })],
        [("T", 1)], ["theme"]⟩ : ReactRegistryState Unit)
      "sidebar.footer" ()).2 "theme"
    (by
      intro pr hpr hne
      rcases List.mem_cons.mp hpr with rfl | h
      · exact absurd rfl hne
      · cases h))

-- ── C2: register/unregister round trip ──

theorem addTranslations_lookup_not_mem {d : TranslationMap} {loc : String}
    (h : loc ∉ keysOf d) :
    ∀ tbl : TranslationMap, lookupObj (addTranslations tbl d) loc = lookupObj tbl loc := by
  induction d with
  | nil => intro tbl; rfl
  | cons hd tl ih =>
    intro tbl
    have h' : loc ∉ hd.1 :: keysOf tl := h
    have h1 : loc ≠ hd.1 := fun e => h' (e ▸ List.mem_cons_self _ _)
    have h2 : loc ∉ keysOf tl := fun m => h' (List.mem_cons_of_mem _ m)
    rw [show addTranslations tbl (hd :: tl) =
        addTranslations
          (setKey tbl hd.1 (mergeObj ((lookupObj tbl hd.1).getD []) hd.2)) tl
      from rfl, ih h2, lookupObj_setKey_other _ _ h1]

theorem removeTranslations_lookup_not_mem {d : TranslationMap} {loc : String}
    (h : loc ∉ keysOf d) :
    ∀ tbl : TranslationMap,
      lookupObj (removeTranslations tbl d) loc = lookupObj tbl loc := by
  induction d with
  | nil => intro tbl; rfl
  | cons hd tl ih =>
    intro tbl
    have h' : loc ∉ hd.1 :: keysOf tl := h
    have h1 : loc ≠ hd.1 := fun e => h' (e ▸ List.mem_cons_self _ _)
    have h2 : loc ∉ keysOf tl := fun m => h' (List.mem_cons_of_mem _ m)
    cases hlook : lookupObj tbl hd.1 with
    | none =>
      rw [show removeTranslations tbl (hd :: tl) =
          removeTranslations
            (match lookupObj tbl hd.1 with
             | some o => setKey tbl hd.1 (eraseKeys o (keysOf hd.2))
             | none => tbl) tl
        from rfl, hlook, ih h2]
    | some o =>
      rw [show removeTranslations tbl (hd :: tl) =
          removeTranslations
            (match lookupObj tbl hd.1 with
             | some o => setKey tbl hd.1 (eraseKeys o (keysOf hd.2))
             | none => tbl) tl
        from rfl, hlook, ih h2, lookupObj_setKey_other _ _ h1]

theorem addTranslations_lookup_mem {d : TranslationMap} {pr : String × Obj String}
    (hnd : (keysOf d).Nodup) (hmem : pr ∈ d) :
    ∀ tbl : TranslationMap,
      lookupObj (addTranslations tbl d) pr.1 =
        some (mergeObj ((lookupObj tbl pr.1).getD []) pr.2) := by
  induction d with
  | nil => cases hmem
  | cons hd tl ih =>
    intro tbl
    have hnd' : hd.1 ∉ keysOf tl ∧ (keysOf tl).Nodup := by
      have : (hd.1 :: keysOf tl).Nodup := hnd
      exact List.nodup_cons.mp this
    rcases List.mem_cons.mp hmem with rfl | hmem'
    · rw [show addTranslations tbl (pr :: tl) =
          addTranslations
            (setKey tbl pr.1 (mergeObj ((lookupObj tbl pr.1).getD []) pr.2)) tl
        from rfl,
        addTranslations_lookup_not_mem hnd'.1 _, lookupObj_setKey_self]
    · have hne : pr.1 ≠ hd.1 := by
        intro e
        apply hnd'.1
        rw [← e]
        exact List.mem_map.mpr ⟨pr, hmem', rfl⟩
      rw [show addTranslations tbl (hd :: tl) =
          addTranslations
            (setKey tbl hd.1 (mergeObj ((lookupObj tbl hd.1).getD []) hd.2)) tl
        from rfl, ih hnd'.2 hmem', lookupObj_setKey_other _ _ hne]

theorem removeTranslations_lookup_mem {d : TranslationMap} {pr : String × Obj String}
    (hnd : (keysOf d).Nodup) (hmem : pr ∈ d) :
    ∀ tbl : TranslationMap,
      lookupObj (removeTranslations tbl d) pr.1 =
        match lookupObj tbl pr.1 with
        | some o => some (eraseKeys o (keysOf pr.2))
        | none => none := by
  induction d with
  | nil => cases hmem
  | cons hd tl ih =>
    intro tbl
    have hnd' : hd.1 ∉ keysOf tl ∧ (keysOf tl).Nodup := by
      have : (hd.1 :: keysOf tl).Nodup := hnd
      exact List.nodup_cons.mp this
    rcases List.mem_cons.mp hmem with rfl | hmem'
    · cases hlook : lookupObj tbl pr.1 with
      | none =>
        rw [show removeTranslations tbl (pr :: tl) =
            removeTranslations
              (match lookupObj tbl pr.1 with
               | some o => setKey tbl pr.1 (eraseKeys o (keysOf pr.2))
               | none => tbl) tl
          from rfl, hlook, removeTranslations_lookup_not_mem hnd'.1 _, hlook]
      | some o =>
        rw [show removeTranslations tbl (pr :: tl) =
            removeTranslations
              (match lookupObj tbl pr.1 with
               | some o => setKey tbl pr.1 (eraseKeys o (keysOf pr.2))
               | none => tbl) tl
          from rfl, hlook, removeTranslations_lookup_not_mem hnd'.1 _,
          lookupObj_setKey_self]
    · have hne : pr.1 ≠ hd.1 := by
        intro e
        apply hnd'.1
        rw [← e]
        exact List.mem_map.mpr ⟨pr, hmem', rfl⟩
      cases hlook : lookupObj tbl hd.1 with
      | none =>
        rw [show removeTranslations tbl (hd :: tl) =
            removeTranslations
              (match lookupObj tbl hd.1 with
               | some o => setKey tbl hd.1 (eraseKeys o (keysOf hd.2))
               | none => tbl) tl
          from rfl, hlook, ih hnd'.2 hmem']
      | some o =>
        rw [show removeTranslations tbl (hd :: tl) =
            removeTranslations
              (match lookupObj tbl hd.1 with
               | some o => setKey tbl hd.1 (eraseKeys o (keysOf hd.2))
               | none => tbl) tl
          from rfl, hlook, ih hnd'.2 hmem', lookupObj_setKey_other _ _ hne]

theorem load_then_unload_eq (s : RegistryState κ) (m : PluginManifest κ)
    (B : Obj Nat) (hname : lookupObj s.plugins m.name = none)
    (hinit : ¬ m.onInit = some false) :
    unloadPlugin m.name (loadPluginFromManifest m B s) =
      { plugins := eraseKey (setKey s.plugins m.name m) m.name
        components :=
          match m.components with
          | some mc => eraseKeys (mergeObj s.components B) (keysOf mc)
          | none => mergeObj s.components B
        routes :=
          match m.routes with
          | some rs => (s.routes ++ rs).filter (fun r => !(rs.contains r))
          | none => s.routes
        translations :=
          match m.translations with
          | some tr => removeTranslations (addTranslations s.translations tr) tr
          | none => s.translations } := by
  have hload : loadPluginFromManifest m B s =
      { plugins := setKey s.plugins m.name m
        components := mergeObj s.components B
        routes :=
          match m.routes with
          | some rs => s.routes ++ rs
          | none => s.routes
        translations :=
          match m.translations with
          | some tr => addTranslations s.translations tr
          | none => s.translations } := by
    simp [loadPluginFromManifest, hname, hinit]
  rw [hload]
  have hlook : lookupObj (setKey s.plugins m.name m) m.name = some m :=
    lookupObj_setKey_self _ _ _
  simp only [unloadPlugin, hlook]
  cases m.components <;> cases m.routes <;> cases m.translations <;> rfl

/-- Claim C2 amended.  `register(M, B)` followed by `unregister(M.name)`
restores the component bundle, route list and translation table, provided
additionally that: `M.name` is not already registered, `M.components`
lists the same keys as the bundle `B` actually registered, those keys are
not already in the bundle, `M`'s route objects are not already in the
route list, and `M`'s translation keys are not already in the table (per
locale).  (`(keysOf …).Nodup` records that a JS object cannot repeat
locale keys.) -/
theorem register_unregister_round_trip (s : RegistryState κ)
    (m : PluginManifest κ) (B : Obj Nat)
    (hname : lookupObj s.plugins m.name = none)
    (hkeys : ∀ k, k ∈ keysOf (m.components.getD []) ↔ k ∈ keysOf B)
    (hfreshB : ∀ k, k ∈ keysOf B → lookupObj s.components k = none)
    (hroutes : ∀ r, r ∈ m.routes.getD [] → r ∉ s.routes)
    (htrNodup : (keysOf (m.translations.getD [])).Nodup)
    (htr : ∀ loc ko k, (loc, ko) ∈ m.translations.getD [] → k ∈ keysOf ko →
      lookupTr s.translations loc k = none) :
    (∀ k, lookupObj (unloadPlugin m.name (loadPluginFromManifest m B s)).components k
        = lookupObj s.components k) ∧
    (unloadPlugin m.name (loadPluginFromManifest m B s)).routes = s.routes ∧
    (∀ loc k,
      lookupTr (unloadPlugin m.name (loadPluginFromManifest m B s)).translations loc k
        = lookupTr s.translations loc k) := by
  by_cases hinit : m.onInit = some false
  · have hload : loadPluginFromManifest m B s = s := by
      simp [loadPluginFromManifest, hname, hinit]
    have hunload : unloadPlugin m.name s = s := by
      rw [unloadPlugin, hname]
    rw [hload, hunload]
    exact ⟨fun k => rfl, rfl, fun loc k => rfl⟩
  · rw [load_then_unload_eq s m B hname hinit]
    refine ⟨?_, ?_, ?_⟩
    · intro k
      cases hmc : m.components with
      | none =>
        have hBnil : B = [] := by
          have hkeysB : keysOf B = [] := by
            rw [List.eq_nil_iff_forall_not_mem]
            intro x hx
            have := (hkeys x).mpr hx
            rw [hmc] at this
            cases this
          exact List.map_eq_nil_iff.mp hkeysB
        simp only [hBnil, mergeObj_nil]
      | some mc =>
        have hkeys' : ∀ k, k ∈ keysOf mc ↔ k ∈ keysOf B := by
          intro k'
          have := hkeys k'
          rw [hmc] at this
          exact this
        by_cases hk : k ∈ keysOf B
        · rw [lookupObj_eraseKeys_mem _ ((hkeys' k).mpr hk) _, hfreshB k hk]
        · rw [lookupObj_eraseKeys_not_mem _ (fun hmem => hk ((hkeys' k).mp hmem)) _,
            lookupObj_mergeObj_not_mem _ hk _]
    · cases hmr : m.routes with
      | none => rfl
      | some rs =>
        have hroutes' : ∀ r, r ∈ rs → r ∉ s.routes := by
          intro r hr
          have := hroutes r
          rw [hmr] at this
          exact this hr
        show (s.routes ++ rs).filter (fun r => !(rs.contains r)) = s.routes
        rw [List.filter_append]
        have h1 : s.routes.filter (fun r => !(rs.contains r)) = s.routes := by
          rw [List.filter_eq_self]
          intro r hr
          have : r ∉ rs := fun hmem => hroutes' r hmem hr
          simp [this]
        have h2 : rs.filter (fun r => !(rs.contains r)) = [] := by
          rw [List.filter_eq_nil_iff]
          intro r hr
          simp [hr]
        rw [h1, h2, List.append_nil]
    · intro loc k
      cases hmt : m.translations with
      | none => rfl
      | some tr =>
        have hnd : (keysOf tr).Nodup := by
          have := htrNodup
          rw [hmt] at this
          exact this
        have htr' : ∀ pr : String × Obj String, pr ∈ tr → ∀ k', k' ∈ keysOf pr.2 →
            lookupTr s.translations pr.1 k' = none := by
          intro pr hpr k' hk'
          have := htr pr.1 pr.2 k'
          rw [hmt] at this
          exact this hpr hk'
        by_cases hloc : loc ∈ keysOf tr
        · obtain ⟨pr, hpr, hpr1⟩ := List.mem_map.mp hloc
          subst hpr1
          have hAdd := addTranslations_lookup_mem hnd hpr s.translations
          have hRem := removeTranslations_lookup_mem hnd hpr
            (addTranslations s.translations tr)
          rw [hAdd] at hRem
          rw [lookupTr, hRem]
          show lookupObj
              (eraseKeys (mergeObj ((lookupObj s.translations pr.1).getD []) pr.2)
                (keysOf pr.2)) k
            = lookupTr s.translations pr.1 k
          by_cases hk : k ∈ keysOf pr.2
          · rw [lookupObj_eraseKeys_mem _ hk _, (htr' pr hpr k hk).symm]
          · rw [lookupObj_eraseKeys_not_mem _ hk _, lookupObj_mergeObj_not_mem _ hk _]
            show lookupObj ((lookupObj s.translations pr.1).getD []) k
              = (lookupObj s.translations pr.1).bind (fun o => lookupObj o k)
            cases lookupObj s.translations pr.1 <;> rfl
        · have hA := addTranslations_lookup_not_mem hloc s.translations
          have hR := removeTranslations_lookup_not_mem hloc
            (addTranslations s.translations tr)
          rw [lookupTr, hR, hA, lookupTr]

/-- Claim C2 counterexample.  `register(M, B)` merges the bundle argument
`B` into the components, but `unregister(M.name)` deletes only the keys
of `M`'s own `components` field (see the `FIX:` comment in
`unloadPlugin`): with `M.components` absent and `B = { X: 1 }`, the key
`X` survives the round trip although it was absent before. -/
theorem register_unregister_no_round_trip :
    lookupObj
        (unloadPlugin "p"
          (loadPluginFromManifest ({ name := "p" } : PluginManifest Unit)
            [("X", 1)] ⟨[], [], [], []⟩)).components "X" = some 1 ∧
    lookupObj (⟨[], [], [], []⟩ : RegistryState Unit).components "X" = none :=
  ⟨rfl, rfl⟩

theorem register_unregister_round_trip_witness :
    lookupObj
        (unloadPlugin "p"
          (loadPluginFromManifest
            ({ name := "p", components := some [("C", 1)],
               routes := some [{ rid := 1 }],
               translations := some [("en", [("greet", "hi")])] } :
              PluginManifest Unit)
            [("C", 1)]
            ⟨[], [("OLD", 9)], [{ rid := 0 }], [("en", [("x", "1")])]⟩)).components
        "C"
      = lookupObj [("OLD", 9)] "C" ∧
    (unloadPlugin "p"
        (loadPluginFromManifest
          ({ name := "p", components := some [("C", 1)],
             routes := some [{ rid := 1 }],
             translations := some [("en", [("greet", "hi")])] } :
            PluginManifest Unit)
          [("C", 1)]
          ⟨[], [("OLD", 9)], [{ rid := 0 }], [("en", [("x", "1")])]⟩)).routes
      = [{ rid := 0 }] ∧
    lookupTr
        (unloadPlugin "p"
          (loadPluginFromManifest
            ({ name := "p", components := some [("C", 1)],
               routes := some [{ rid := 1 }],
               translations := some [("en", [("greet", "hi")])] } :
              PluginManifest Unit)
            [("C", 1)]
            ⟨[], [("OLD", 9)], [{ rid := 0 }], [("en", [("x", "1")])]⟩)).translations
        "en" "greet"
      = lookupTr [("en", [("x", "1")])] "en" "greet" := by
  have h := register_unregister_round_trip
    (⟨[], [("OLD", 9)], [{ rid := 0 }], [("en", [("x", "1")])]⟩ : RegistryState Unit)
    ({ name := "p", components := some [("C", 1)], routes := some [{ rid := 1 }],
       translations := some [("en", [("greet", "hi")])] } : PluginManifest Unit)
    [("C", 1)]
    rfl
    (fun k => Iff.rfl)
    (by
      intro k hk
      have : k = "C" := by simpa [keysOf] using hk
      subst this
      rfl)
    (by
      intro r hr
      have : r = { rid := 1 } := by simpa using hr
      subst this
      decide)
    (by decide)
    (by
      intro loc ko k hmem hk
      have h1 : loc = "en" ∧ ko = [("greet", "hi")] := by simpa using hmem
      obtain ⟨rfl, rfl⟩ := h1
      have : k = "greet" := by simpa [keysOf] using hk
      subst this
      rfl)
  exact ⟨h.1 "C", h.2.1, h.2.2 "en" "greet"⟩

end Broccoli
